import Mathlib

/-!
Verification of the release-application engine (`src/release/instance.go`,
function `applyChanges` and helper `summariseUpdate`) against its
natural-language specification.

The engine is embedded shallowly: every observable action of one call
(event-log emissions, ledger writes, Platform apply submissions) is recorded
in an ordered trace, and the mutable `flux.ReleaseResult` map is threaded as
an explicit ledger.  Types from the repository's root `flux` and `platform`
packages are not under `src/` and are modelled from the spec where noted.
-/

namespace Flux

/-- Modelled from the spec: a service identity is a namespace plus a service
name (`flux.ServiceID`, outside `src/`); `Components()` returns the pair. -/
structure ServiceID where
  ns : String
  name : String
deriving DecidableEq

/-- Rendering of a service identity, as used by the diagnostic log call
(`def.ServiceID.String()`). -/
def ServiceID.render (id : ServiceID) : String := id.ns ++ "/" ++ id.name

/-- Modelled from the spec: an image reference (`flux.ImageID`, outside
`src/`), a repository plus a tag component; the code reads its `Tag` field. -/
structure ImageID where
  repo : String
  tag : String
deriving DecidableEq

/-- The full image reference as printed by `%s`. -/
def ImageID.render (i : ImageID) : String := i.repo ++ ":" ++ i.tag

/-- Modelled from the spec: one container change of an Update Record
(`flux.ContainerUpdate`, outside `src/`): container name, current image
reference, target image reference. -/
structure ContainerUpdate where
  container : String
  current : ImageID
  target : ImageID
deriving DecidableEq

/-- Modelled from the spec: the status carried by a ledger entry
(`flux.ReleaseStatus`, outside `src/`) is one of three constants; `other`
stands for any remaining value of the underlying string type (in particular
the zero value of a missing map entry). -/
inductive ReleaseStatus
  | success
  | failed
  | unknown
  | other (s : String)
deriving DecidableEq

/-- The string the diagnostic log prints for a status value. -/
def ReleaseStatus.render : ReleaseStatus → String
  | .success => "success"
  | .failed => "failed"
  | .unknown => "unknown"
  | .other s => s

/-- Modelled from the spec: one ledger entry (`flux.ServiceResult`, outside
`src/`): status, error message, and the container changes kept for
reporting. -/
structure ServiceResult where
  status : ReleaseStatus
  error : String
  perContainer : List ContainerUpdate
deriving DecidableEq

/-- The zero value a Go map read yields for an absent key. -/
def zeroResult : ServiceResult := ⟨.other "", "", []⟩

/-- The Result Ledger (`flux.ReleaseResult`): a total map from service
identity to its entry, absent keys reading as `zeroResult`. -/
abbrev Ledger := ServiceID → ServiceResult

/-- A Go map store `results[id] = r`. -/
def ledgerWrite (m : Ledger) (id : ServiceID) (r : ServiceResult) : Ledger :=
  fun j => if j = id then r else m j

/-- A ledger with no entries. -/
def emptyLedger : Ledger := fun _ => zeroResult

/-- One Update Record (`release.ServiceUpdate`): the fields `applyChanges`
reads. -/
structure ServiceUpdate where
  serviceID : ServiceID
  manifestBytes : String
  updates : List ContainerUpdate
deriving DecidableEq

/-- `platform.ServiceDefinition`: what is submitted to the Platform apply. -/
structure ServiceDefinition where
  serviceID : ServiceID
  newDefinition : String
  async : Bool
deriving DecidableEq

/-- Modelled from the spec: the Platform apply returns nil, a per-service
mapping error (`platform.ApplyError`, a map from serviceID to a cause,
outside `src/`), or any other, coverall error; the type switch in
`applyChanges` distinguishes exactly these shapes. -/
inductive PlatformError
  | applyError (m : List (ServiceID × String))
  | coverall (msg : String)
deriving DecidableEq

/-- The external Platform collaborator, scripted by the outcome it returns
for the ordinary batch apply call. -/
structure Platform where
  resp : Option PlatformError
deriving DecidableEq

/-- One observable action of a run: an event-log emission
(`inst.LogEvent`), an internal diagnostic log (`inst.Log`), a Platform apply
submission (the `Bool` marks the async call site), or a ledger store. -/
inductive Op
  | logEvent (ns svc msg : String)
  | logDiag (msg : String) (serviceID : String) (status : String)
  | platformApply (defs : List ServiceDefinition) (async : Bool)
  | writeResult (id : ServiceID) (r : ServiceResult)
deriving DecidableEq

/-- `summariseUpdate` from `src/release/instance.go`: renders a record's
container changes, each as `"<container> (<current> -> <target tag>)"`,
joined with `", "`; `"(no image changes)"` when there are none. -/
def summariseUpdate (containerUpdates : List ContainerUpdate) : String :=
  if containerUpdates = [] then "(no image changes)"
  else String.intercalate ", "
    (containerUpdates.map fun c =>
      c.container ++ " (" ++ c.current.render ++ " -> " ++ c.target.tag ++ ")")

/-- The two reserved service names. Modelled from the spec: the releaser's
own service and its background daemon (constants `FluxServiceName` and
`FluxDaemonName`, outside `src/`). -/
def FluxServiceName : String := "flux"

/-- See `FluxServiceName`. -/
def FluxDaemonName : String := "fluxd"

/-- The partition test of the `switch serviceName` statement: a record is
destined for the async (self) partition iff its service name is one of the
two reserved names. -/
def isSelfService (name : String) : Bool :=
  name == FluxServiceName || name == FluxDaemonName

/-- The provisional entry written while priming: status `Success`, the
entry's pre-existing `Error` and `PerContainer` kept
(`results[update.ServiceID] = ServiceResult{Success, result.Error,
result.PerContainer}`). -/
def primeResult (r : ServiceResult) : ServiceResult :=
  ⟨.success, r.error, r.perContainer⟩

/-- Priming one record's ledger entry. -/
def primeOne (res : Ledger) (u : ServiceUpdate) : Ledger :=
  ledgerWrite res u.serviceID (primeResult (res u.serviceID))

/-- Output of the first loop of `applyChanges`: the two partitions, the
primed ledger, and the actions taken. -/
structure StartOut where
  defs : List ServiceDefinition
  asyncDefs : List ServiceDefinition
  ledger : Ledger
  ops : List Op

/-- The first loop of `applyChanges` (lines 46-71): for each update in
order, emit the "Starting" event, append its definition to `defs` or
`asyncDefs` by the reserved-name switch, and prime its ledger entry to
provisional `Success`. -/
def startPhase : List ServiceUpdate → Ledger → StartOut
  | [], res => ⟨[], [], res, []⟩
  | u :: rest, res =>
    if isSelfService u.serviceID.name then
      ⟨(startPhase rest (primeOne res u)).defs,
       ⟨u.serviceID, u.manifestBytes, true⟩ :: (startPhase rest (primeOne res u)).asyncDefs,
       (startPhase rest (primeOne res u)).ledger,
       Op.logEvent u.serviceID.ns u.serviceID.name
           ("Starting " ++ summariseUpdate u.updates ++ ". (no result expected)")
         :: Op.writeResult u.serviceID (primeResult (res u.serviceID))
         :: (startPhase rest (primeOne res u)).ops⟩
    else
      ⟨⟨u.serviceID, u.manifestBytes, false⟩ :: (startPhase rest (primeOne res u)).defs,
       (startPhase rest (primeOne res u)).asyncDefs,
       (startPhase rest (primeOne res u)).ledger,
       Op.logEvent u.serviceID.ns u.serviceID.name
           ("Starting " ++ summariseUpdate u.updates)
         :: Op.writeResult u.serviceID (primeResult (res u.serviceID))
         :: (startPhase rest (primeOne res u)).ops⟩

/-- The `platform.ApplyError` branch (lines 76-82): for each serviceID in
the mapping, store `{Failed, cause}` (the `PerContainer` field is not
carried along). -/
def failWrites : List (ServiceID × String) → Ledger → Ledger × List Op
  | [], res => (res, [])
  | (id, cause) :: rest, res =>
    ((failWrites rest (ledgerWrite res id ⟨.failed, cause, []⟩)).1,
     Op.writeResult id ⟨.failed, cause, []⟩
       :: (failWrites rest (ledgerWrite res id ⟨.failed, cause, []⟩)).2)

/-- The coverall branch (lines 83-94): every update of the original batch is
stored as `{Unknown, transactionErr.Error()}`. -/
def unknownWrites (msg : String) : List ServiceUpdate → Ledger → Ledger × List Op
  | [], res => (res, [])
  | u :: rest, res =>
    ((unknownWrites msg rest (ledgerWrite res u.serviceID ⟨.unknown, msg, []⟩)).1,
     Op.writeResult u.serviceID ⟨.unknown, msg, []⟩
       :: (unknownWrites msg rest (ledgerWrite res u.serviceID ⟨.unknown, msg, []⟩)).2)

/-- One iteration of the reporting loop (lines 99-114): the event emitted
for a synchronous definition, by the status found in the ledger, the message
summarising the entry's `PerContainer` field. -/
def reportOp (d : ServiceDefinition) (r : ServiceResult) : Op :=
  match r.status with
  | .success =>
      .logEvent d.serviceID.ns d.serviceID.name
        ("Release " ++ summariseUpdate r.perContainer ++ " succeeded")
  | .failed =>
      .logEvent d.serviceID.ns d.serviceID.name
        ("Release " ++ summariseUpdate r.perContainer ++ " failed: " ++ r.error)
  | .unknown =>
      .logEvent d.serviceID.ns d.serviceID.name
        ("Release " ++ summariseUpdate r.perContainer ++ " outcome unknown: " ++ r.error)
  | .other s => .logDiag "unexpected release status" d.serviceID.render s

/-- The reporting loop over the synchronous definitions, the ledger
unchanged throughout. -/
def reportPhase (defs : List ServiceDefinition) (res : Ledger) : List Op :=
  defs.map fun d => reportOp d (res d.serviceID)

/-- The outcome of one `applyChanges` call: its observable trace, the final
ledger, and the error value returned to the caller. -/
structure RunResult where
  trace : List Op
  ledger : Ledger
  err : Option PlatformError

/-- `applyChanges` from `src/release/instance.go`: prime and partition, the
ordinary Platform apply, the type switch on its error (per-service writes,
or coverall writes followed by an early return), the reporting loop, the
conditional async apply whose result is discarded, and `return
transactionErr`. -/
def applyChanges (p : Platform) (updates : List ServiceUpdate)
    (results : Ledger) : RunResult :=
  match p.resp with
  | some (PlatformError.coverall msg) =>
      ⟨(startPhase updates results).ops
         ++ [Op.platformApply (startPhase updates results).defs false]
         ++ (unknownWrites msg updates (startPhase updates results).ledger).2,
       (unknownWrites msg updates (startPhase updates results).ledger).1,
       some (PlatformError.coverall msg)⟩
  | some (PlatformError.applyError m) =>
      ⟨(startPhase updates results).ops
         ++ [Op.platformApply (startPhase updates results).defs false]
         ++ (failWrites m (startPhase updates results).ledger).2
         ++ reportPhase (startPhase updates results).defs
              (failWrites m (startPhase updates results).ledger).1
         ++ (if (startPhase updates results).asyncDefs = [] then []
             else [Op.platformApply (startPhase updates results).asyncDefs true]),
       (failWrites m (startPhase updates results).ledger).1,
       some (PlatformError.applyError m)⟩
  | none =>
      ⟨(startPhase updates results).ops
         ++ [Op.platformApply (startPhase updates results).defs false]
         ++ reportPhase (startPhase updates results).defs
              (startPhase updates results).ledger
         ++ (if (startPhase updates results).asyncDefs = [] then []
             else [Op.platformApply (startPhase updates results).asyncDefs true]),
       (startPhase updates results).ledger,
       none⟩

/-! ### Concrete sample data -/

/-- A plain ordinary service. -/
def sidWeb : ServiceID := ⟨"ns", "web"⟩

/-- A second ordinary service. -/
def sidDb : ServiceID := ⟨"ns", "db"⟩

/-- A service bearing the releaser's own reserved name. -/
def sidFluxSelf : ServiceID := ⟨"ns", "flux"⟩

/-- A service identity that appears in no batch. -/
def sidGhost : ServiceID := ⟨"ns", "ghost"⟩

/-- One container change, from `img:v1` to `img:v2`. -/
def cu1 : ContainerUpdate := ⟨"c1", ⟨"img", "v1"⟩, ⟨"img", "v2"⟩⟩

/-- An ordinary update carrying one container change. -/
def updWeb : ServiceUpdate := ⟨sidWeb, "m1", [cu1]⟩

/-- An ordinary update with no container changes. -/
def updDb : ServiceUpdate := ⟨sidDb, "m2", []⟩

/-- A self update (reserved service name). -/
def updFluxSelf : ServiceUpdate := ⟨sidFluxSelf, "m3", []⟩

/-! ### Characterization of the phases -/

/-- Reading back the entry just stored. -/
lemma ledgerWrite_self (m : Ledger) (id : ServiceID) (r : ServiceResult) :
    ledgerWrite m id r id = r := by
  simp [ledgerWrite]

/-- Stores do not touch other entries. -/
lemma ledgerWrite_other (m : Ledger) (id : ServiceID) (r : ServiceResult)
    (j : ServiceID) (h : j ≠ id) : ledgerWrite m id r j = m j := by
  simp [ledgerWrite, h]

/-- The ledger after the priming loop: every batch member carries status
`Success` with its pre-existing error message and container changes; every
other entry is untouched. -/
lemma startPhase_ledger (us : List ServiceUpdate) (res : Ledger) (id : ServiceID) :
    (startPhase us res).ledger id =
      if id ∈ us.map (fun u => u.serviceID)
      then ⟨.success, (res id).error, (res id).perContainer⟩
      else res id := by
  induction us generalizing res with
  | nil => simp [startPhase]
  | cons u rest ih =>
    have hled : (startPhase (u :: rest) res).ledger
        = (startPhase rest (primeOne res u)).ledger := by
      cases hs : isSelfService u.serviceID.name <;> simp [startPhase, hs]
    rw [hled, ih]
    by_cases hid : id = u.serviceID
    · subst hid
      simp [primeOne, ledgerWrite, primeResult]
    · simp only [primeOne, ledgerWrite, if_neg hid, List.map_cons, List.mem_cons]
      have : ¬ id = u.serviceID := hid
      simp [this]

/-- The ordinary partition is exactly the non-reserved updates, in order. -/
lemma startPhase_defs (us : List ServiceUpdate) (res : Ledger) :
    (startPhase us res).defs
      = (us.filter fun u => !isSelfService u.serviceID.name).map
          (fun u => ⟨u.serviceID, u.manifestBytes, false⟩) := by
  induction us generalizing res with
  | nil => simp [startPhase]
  | cons u rest ih =>
    cases hs : isSelfService u.serviceID.name <;>
      simp [startPhase, hs, List.filter_cons, ih]

/-- The self partition is exactly the reserved-name updates, in order. -/
lemma startPhase_asyncDefs (us : List ServiceUpdate) (res : Ledger) :
    (startPhase us res).asyncDefs
      = (us.filter fun u => isSelfService u.serviceID.name).map
          (fun u => ⟨u.serviceID, u.manifestBytes, true⟩) := by
  induction us generalizing res with
  | nil => simp [startPhase]
  | cons u rest ih =>
    cases hs : isSelfService u.serviceID.name <;>
      simp [startPhase, hs, List.filter_cons, ih]

/-- Every action of the priming loop is a "Starting" event or a ledger
store. -/
lemma startPhase_ops_shape (us : List ServiceUpdate) (res : Ledger) :
    ∀ op ∈ (startPhase us res).ops,
      (∃ a b t, op = Op.logEvent a b ("Starting " ++ t))
      ∨ ∃ id r, op = Op.writeResult id r := by
  induction us generalizing res with
  | nil => simp [startPhase]
  | cons u rest ih =>
    intro op hop
    cases hs : isSelfService u.serviceID.name <;>
      simp only [startPhase, hs, Bool.false_eq_true, if_false, if_true,
        List.mem_cons] at hop
    · rcases hop with h | h | h
      · exact Or.inl ⟨u.serviceID.ns, u.serviceID.name, summariseUpdate u.updates, h⟩
      · exact Or.inr ⟨u.serviceID, primeResult (res u.serviceID), h⟩
      · exact ih (primeOne res u) op h
    · rcases hop with h | h | h
      · refine Or.inl ⟨u.serviceID.ns, u.serviceID.name,
          summariseUpdate u.updates ++ ". (no result expected)", ?_⟩
        rw [h, String.append_assoc]
      · exact Or.inr ⟨u.serviceID, primeResult (res u.serviceID), h⟩
      · exact ih (primeOne res u) op h

/-- Ledger stores of the priming loop only target batch members. -/
lemma startPhase_write_mem (us : List ServiceUpdate) (res : Ledger)
    (id : ServiceID) (r : ServiceResult)
    (h : Op.writeResult id r ∈ (startPhase us res).ops) :
    id ∈ us.map (fun u => u.serviceID) := by
  induction us generalizing res with
  | nil => simp [startPhase] at h
  | cons u rest ih =>
    cases hs : isSelfService u.serviceID.name <;>
      simp only [startPhase, hs, Bool.false_eq_true, if_false, if_true,
        List.mem_cons] at h <;>
    · rcases h with h | h | h
      · exact absurd h (by simp)
      · simp [Op.writeResult.injEq] at h
        simp [h.1]
      · simpa using Or.inr (ih (primeOne res u) h)

/-- The ledger after the coverall branch: every batch member reads
`Unknown` with the coverall message; other entries untouched. -/
lemma unknownWrites_ledger (msg : String) (us : List ServiceUpdate)
    (res : Ledger) (id : ServiceID) :
    (unknownWrites msg us res).1 id =
      if id ∈ us.map (fun u => u.serviceID)
      then ⟨.unknown, msg, []⟩ else res id := by
  induction us generalizing res with
  | nil => simp [unknownWrites]
  | cons u rest ih =>
    simp only [unknownWrites]
    rw [ih]
    by_cases hid : id = u.serviceID
    · subst hid; simp [ledgerWrite]
    · simp only [ledgerWrite, if_neg hid, List.map_cons, List.mem_cons]
      have : ¬ id = u.serviceID := hid
      simp [this]

/-- Every action of the coverall branch is an `Unknown` store to a batch
member. -/
lemma unknownWrites_ops (msg : String) (us : List ServiceUpdate) (res : Ledger) :
    ∀ op ∈ (unknownWrites msg us res).2,
      ∃ id, id ∈ us.map (fun u => u.serviceID)
        ∧ op = Op.writeResult id ⟨.unknown, msg, []⟩ := by
  induction us generalizing res with
  | nil => simp [unknownWrites]
  | cons u rest ih =>
    intro op hop
    simp only [unknownWrites, List.mem_cons] at hop
    rcases hop with h | h
    · exact ⟨u.serviceID, by simp, h⟩
    · rcases ih (ledgerWrite res u.serviceID ⟨.unknown, msg, []⟩) op h with ⟨id, hm, he⟩
      exact ⟨id, by simp [hm], he⟩

/-- Entries whose key the per-service mapping does not name are untouched
by the `ApplyError` branch. -/
lemma failWrites_not_mem (m : List (ServiceID × String)) (res : Ledger)
    (id : ServiceID) (h : id ∉ m.map Prod.fst) :
    (failWrites m res).1 id = res id := by
  induction m generalizing res with
  | nil => simp [failWrites]
  | cons p rest ih =>
    obtain ⟨j, c⟩ := p
    simp only [List.map_cons, List.mem_cons] at h
    push_neg at h
    simp only [failWrites]
    rw [ih _ h.2, ledgerWrite_other _ _ _ _ h.1]

/-- Entries named by the per-service mapping (with map-like, duplicate-free
keys) read `Failed` with the mapped cause. -/
lemma failWrites_mem (m : List (ServiceID × String)) (res : Ledger)
    (id : ServiceID) (c : String) (hnd : (m.map Prod.fst).Nodup)
    (h : (id, c) ∈ m) :
    (failWrites m res).1 id = ⟨.failed, c, []⟩ := by
  induction m generalizing res with
  | nil => simp at h
  | cons p rest ih =>
    obtain ⟨j, d⟩ := p
    simp only [List.map_cons, List.nodup_cons] at hnd
    simp only [List.mem_cons, Prod.mk.injEq] at h
    simp only [failWrites]
    rcases h with ⟨h1, h2⟩ | h
    · subst h1; subst h2
      rw [failWrites_not_mem _ _ _ hnd.1, ledgerWrite_self]
    · exact ih _ hnd.2 h

/-- The `ApplyError` branch only stores `Failed` entries at named keys. -/
lemma failWrites_ops (m : List (ServiceID × String)) (res : Ledger) :
    ∀ op ∈ (failWrites m res).2,
      ∃ id c, (id, c) ∈ m ∧ op = Op.writeResult id ⟨.failed, c, []⟩ := by
  induction m generalizing res with
  | nil => simp [failWrites]
  | cons p rest ih =>
    obtain ⟨j, d⟩ := p
    intro op hop
    simp only [failWrites, List.mem_cons] at hop
    rcases hop with h | h
    · exact ⟨j, d, by simp, h⟩
    · rcases ih _ op h with ⟨id, c, hm2, he⟩
      exact ⟨id, c, by simp [hm2], he⟩

/-- Each ledger entry after the `ApplyError` branch is either untouched or
a `Failed` entry with a cause named for it in the mapping. -/
lemma failWrites_ledger_shape (m : List (ServiceID × String)) (res : Ledger)
    (id : ServiceID) :
    (failWrites m res).1 id = res id
    ∨ ∃ c, (id, c) ∈ m ∧ (failWrites m res).1 id = ⟨.failed, c, []⟩ := by
  induction m generalizing res with
  | nil => simp [failWrites]
  | cons p rest ih =>
    obtain ⟨j, d⟩ := p
    simp only [failWrites]
    rcases ih (ledgerWrite res j ⟨.failed, d, []⟩) with h | ⟨c, hm, he⟩
    · by_cases hj : id = j
      · subst hj
        rw [h, ledgerWrite_self]
        exact Or.inr ⟨d, by simp, rfl⟩
      · rw [h, ledgerWrite_other _ _ _ _ hj]
        exact Or.inl rfl
    · exact Or.inr ⟨c, by simp [hm], he⟩

/-- A reporting iteration never submits anything to the Platform. -/
lemma reportOp_ne_platformApply (d : ServiceDefinition) (r : ServiceResult)
    (ds : List ServiceDefinition) (b : Bool) :
    reportOp d r ≠ Op.platformApply ds b := by
  cases hr : r.status <;> simp [reportOp, hr]

/-- A reporting iteration never stores to the ledger. -/
lemma reportOp_ne_writeResult (d : ServiceDefinition) (r : ServiceResult)
    (id : ServiceID) (rr : ServiceResult) :
    reportOp d r ≠ Op.writeResult id rr := by
  cases hr : r.status <;> simp [reportOp, hr]

/-- When every reported entry reads `Success` or `Failed`, the reporting
loop emits exactly one result event per synchronous definition, in order,
with the message determined by the entry. -/
lemma reportPhase_eq_map (defs : List ServiceDefinition) (res : Ledger)
    (h : ∀ d ∈ defs, (res d.serviceID).status = ReleaseStatus.success
        ∨ (res d.serviceID).status = ReleaseStatus.failed) :
    reportPhase defs res = defs.map fun d =>
      if (res d.serviceID).status = ReleaseStatus.success then
        Op.logEvent d.serviceID.ns d.serviceID.name
          ("Release " ++ summariseUpdate (res d.serviceID).perContainer ++ " succeeded")
      else
        Op.logEvent d.serviceID.ns d.serviceID.name
          ("Release " ++ summariseUpdate (res d.serviceID).perContainer
            ++ " failed: " ++ (res d.serviceID).error) := by
  unfold reportPhase
  refine List.map_congr_left ?_
  intro d hd
  rcases h d hd with hs | hf
  · simp [reportOp, hs]
  · simp [reportOp, hf]

/-- Synchronous definitions only carry batch serviceIDs. -/
lemma startPhase_defs_mem (us : List ServiceUpdate) (res : Ledger)
    (d : ServiceDefinition) (h : d ∈ (startPhase us res).defs) :
    d.serviceID ∈ us.map (fun u => u.serviceID) := by
  rw [startPhase_defs] at h
  simp only [List.mem_map, List.mem_filter] at h
  rcases h with ⟨u, ⟨hu, _⟩, hd⟩
  exact List.mem_map.mpr ⟨u, hu, by rw [← hd]⟩

/-! ### The claims -/

/-- C1: when the ordinary Platform apply returns a coverall (non
per-service-mapping) error, every record of the entire original batch —
ordinary and self — has its ledger entry overwritten to `Unknown` with that
single error's message, every emitted event is a "Starting" event (so no
per-service result events are emitted), the self/async apply is never
submitted, and the error is returned to the caller. -/
theorem coverall_marks_batch_unknown (p : Platform) (updates : List ServiceUpdate)
    (res : Ledger) (msg : String)
    (h : p.resp = some (PlatformError.coverall msg)) :
    (∀ u ∈ updates, (applyChanges p updates res).ledger u.serviceID
        = ⟨ReleaseStatus.unknown, msg, []⟩)
    ∧ (∀ a b t, Op.logEvent a b t ∈ (applyChanges p updates res).trace →
        ∃ s, t = "Starting " ++ s)
    ∧ (∀ ds, Op.platformApply ds true ∉ (applyChanges p updates res).trace)
    ∧ (applyChanges p updates res).err = some (PlatformError.coverall msg) := by
  simp only [applyChanges, h]
  refine ⟨?_, ?_, ?_, trivial⟩
  · intro u hu
    rw [unknownWrites_ledger, if_pos (List.mem_map.mpr ⟨u, hu, rfl⟩)]
  · intro a b t ht
    simp only [List.append_assoc, List.mem_append, List.mem_singleton] at ht
    rcases ht with ht | ht | ht
    · rcases startPhase_ops_shape updates res _ ht with ⟨_, _, s, hs⟩ | ⟨_, _, hw⟩
      · exact ⟨s, by injection hs⟩
      · exact absurd hw (by simp)
    · exact absurd ht (by simp)
    · rcases unknownWrites_ops msg updates _ _ ht with ⟨_, _, hw⟩
      exact absurd hw (by simp)
  · intro ds hds
    simp only [List.append_assoc, List.mem_append, List.mem_singleton] at hds
    rcases hds with hds | hds | hds
    · rcases startPhase_ops_shape updates res _ hds with ⟨_, _, _, hs⟩ | ⟨_, _, hw⟩
      · exact absurd hs (by simp)
      · exact absurd hw (by simp)
    · exact absurd hds (by simp)
    · rcases unknownWrites_ops msg updates _ _ hds with ⟨_, _, hw⟩
      exact absurd hw (by simp)

/-- C1 witness at a concrete batch: the coverall error "down" leaves both
records `Unknown` and is returned. -/
theorem coverall_marks_batch_unknown_witness :
    (applyChanges ⟨some (PlatformError.coverall "down")⟩ [updWeb, updFluxSelf]
        emptyLedger).ledger sidWeb = ⟨ReleaseStatus.unknown, "down", []⟩
    ∧ (applyChanges ⟨some (PlatformError.coverall "down")⟩ [updWeb, updFluxSelf]
        emptyLedger).err = some (PlatformError.coverall "down") := by
  have h := coverall_marks_batch_unknown ⟨some (PlatformError.coverall "down")⟩
    [updWeb, updFluxSelf] emptyLedger "down" rfl
  exact ⟨h.1 updWeb (by decide), h.2.2.2⟩

/-- C2: when the ordinary Platform apply returns a per-service-mapping
error, every serviceID named in the mapping ends `Failed` with its mapped
cause, and every ordinary record whose serviceID the mapping does not name
keeps its provisional `Success`. -/
theorem perService_failure_localised (p : Platform) (updates : List ServiceUpdate)
    (res : Ledger) (m : List (ServiceID × String))
    (h : p.resp = some (PlatformError.applyError m))
    (hnd : (m.map Prod.fst).Nodup) :
    (∀ q ∈ m, (applyChanges p updates res).ledger q.1
        = ⟨ReleaseStatus.failed, q.2, []⟩)
    ∧ (∀ u ∈ updates, isSelfService u.serviceID.name = false →
        u.serviceID ∉ m.map Prod.fst →
        ((applyChanges p updates res).ledger u.serviceID).status
          = ReleaseStatus.success) := by
  simp only [applyChanges, h]
  constructor
  · intro q hq
    exact failWrites_mem m _ q.1 q.2 hnd hq
  · intro u hu _ hnm
    rw [failWrites_not_mem _ _ _ hnm, startPhase_ledger,
      if_pos (List.mem_map.mpr ⟨u, hu, rfl⟩)]

/-- C2 witness at a concrete batch: `sidWeb` is named and ends `Failed`
with cause "boom"; `sidDb` is not named and keeps `Success`. -/
theorem perService_failure_localised_witness :
    (applyChanges ⟨some (PlatformError.applyError [(sidWeb, "boom")])⟩
        [updWeb, updDb] emptyLedger).ledger sidWeb
      = ⟨ReleaseStatus.failed, "boom", []⟩
    ∧ ((applyChanges ⟨some (PlatformError.applyError [(sidWeb, "boom")])⟩
        [updWeb, updDb] emptyLedger).ledger sidDb).status
      = ReleaseStatus.success := by
  have h := perService_failure_localised
    ⟨some (PlatformError.applyError [(sidWeb, "boom")])⟩ [updWeb, updDb]
    emptyLedger [(sidWeb, "boom")] rfl (by decide)
  exact ⟨h.1 (sidWeb, "boom") (by decide),
    h.2 updDb (by decide) (by decide) (by decide)⟩

/-- C3 counterexample: a per-service-mapping error is not swallowed — at
this concrete input the call returns a non-nil error to the caller,
contradicting "returns no error to the caller in this case". -/
theorem perService_error_returned_cex :
    (applyChanges ⟨some (PlatformError.applyError [(sidWeb, "boom")])⟩
        [updWeb] emptyLedger).err ≠ none := by
  decide

/-- C3 amended: a per-service-mapping error is converted to ledger state
(the named services are marked `Failed`) and processing continues to
reporting and the self apply, but the error is nonetheless re-raised: the
call returns that same error to the caller. -/
theorem perService_error_returned (p : Platform) (updates : List ServiceUpdate)
    (res : Ledger) (m : List (ServiceID × String))
    (h : p.resp = some (PlatformError.applyError m)) :
    (applyChanges p updates res).err = some (PlatformError.applyError m) := by
  simp only [applyChanges, h]

/-- C3 amended, witness: the concrete run of the counterexample returns its
per-service error. -/
theorem perService_error_returned_witness :
    (applyChanges ⟨some (PlatformError.applyError [(sidWeb, "boom")])⟩
        [updWeb, updDb] emptyLedger).err
      = some (PlatformError.applyError [(sidWeb, "boom")]) := by
  exact perService_error_returned
    ⟨some (PlatformError.applyError [(sidWeb, "boom")])⟩ [updWeb, updDb]
    emptyLedger [(sidWeb, "boom")] rfl

/-- C4: the partitioner puts a record in the self partition iff its service
name equals one of the two reserved names (the partitions are exactly the
filters of the input by that test, so membership is characterized, relative
input order is preserved, and no record is dropped or duplicated:
`|ordinary| + |self| = |input|`). -/
theorem partition_complete (updates : List ServiceUpdate) (res : Ledger) :
    (startPhase updates res).asyncDefs
        = (updates.filter fun u => isSelfService u.serviceID.name).map
            (fun u => ⟨u.serviceID, u.manifestBytes, true⟩)
    ∧ (startPhase updates res).defs
        = (updates.filter fun u => !isSelfService u.serviceID.name).map
            (fun u => ⟨u.serviceID, u.manifestBytes, false⟩)
    ∧ (startPhase updates res).defs.length
        + (startPhase updates res).asyncDefs.length = updates.length := by
  refine ⟨startPhase_asyncDefs _ _, startPhase_defs _ _, ?_⟩
  rw [startPhase_defs, startPhase_asyncDefs]
  simp only [List.length_map]
  induction updates with
  | nil => simp
  | cons u rest ih =>
    cases hu : isSelfService u.serviceID.name <;>
      simp [List.filter_cons, hu] <;> omega

/-- C5: before the ordinary Platform apply is issued, every record of both
partitions has its ledger entry written with status `Success`, while for any
pre-existing ledger content the entry's error message and container changes
are preserved: only the status field is overwritten. -/
theorem priming_overwrites_only_status (updates : List ServiceUpdate)
    (res : Ledger) :
    (∀ u ∈ updates, ((startPhase updates res).ledger u.serviceID).status
        = ReleaseStatus.success)
    ∧ (∀ id, ((startPhase updates res).ledger id).error = (res id).error
        ∧ ((startPhase updates res).ledger id).perContainer
            = (res id).perContainer) := by
  constructor
  · intro u hu
    rw [startPhase_ledger, if_pos (List.mem_map.mpr ⟨u, hu, rfl⟩)]
  · intro id
    rw [startPhase_ledger]
    split_ifs <;> simp

/-- C5 witness at a concrete batch with pre-existing content: the entry of
`sidWeb` (pre-loaded with an error message and container changes) is primed
to `Success` with both fields preserved. -/
theorem priming_overwrites_only_status_witness :
    ((startPhase [updWeb, updFluxSelf]
        (ledgerWrite emptyLedger sidWeb ⟨ReleaseStatus.other "", "old", [cu1]⟩)).ledger
          sidWeb).status = ReleaseStatus.success
    ∧ ((startPhase [updWeb, updFluxSelf]
        (ledgerWrite emptyLedger sidWeb ⟨ReleaseStatus.other "", "old", [cu1]⟩)).ledger
          sidWeb).error = "old" := by
  have h := priming_overwrites_only_status [updWeb, updFluxSelf]
    (ledgerWrite emptyLedger sidWeb ⟨ReleaseStatus.other "", "old", [cu1]⟩)
  exact ⟨h.1 updWeb (by decide), by rw [(h.2 sidWeb).1]; decide⟩

/-- Membership in the conditional async tail of the trace. -/
lemma mem_async_tail (ads : List ServiceDefinition) (op : Op)
    (h : op ∈ (if ads = [] then ([] : List Op)
               else [Op.platformApply ads true])) :
    op = Op.platformApply ads true := by
  split at h
  · simp at h
  · simpa using h

/-- C6 counterexample: with the batch `[updWeb]`, a per-service-mapping
error naming the foreign `sidGhost` makes the engine write `sidGhost`'s
ledger entry — a service whose serviceID is not in the input batch. -/
theorem ledger_write_outside_batch_cex :
    Op.writeResult sidGhost ⟨ReleaseStatus.failed, "x", []⟩
        ∈ (applyChanges ⟨some (PlatformError.applyError [(sidGhost, "x")])⟩
            [updWeb] emptyLedger).trace
    ∧ sidGhost ∉ [updWeb].map (fun u => u.serviceID)
    ∧ (applyChanges ⟨some (PlatformError.applyError [(sidGhost, "x")])⟩
          [updWeb] emptyLedger).ledger sidGhost ≠ emptyLedger sidGhost := by
  decide

/-- C6 amended: every ledger store of a run targets either a serviceID of
the input batch or a serviceID named by the per-service-mapping error the
Platform returned (so only a per-service error naming a foreign id can touch
a service outside the batch). -/
theorem ledger_writes_batch_or_named (p : Platform)
    (updates : List ServiceUpdate) (res : Ledger) (id : ServiceID)
    (r : ServiceResult)
    (h : Op.writeResult id r ∈ (applyChanges p updates res).trace) :
    id ∈ updates.map (fun u => u.serviceID)
    ∨ ∃ m, p.resp = some (PlatformError.applyError m)
        ∧ id ∈ m.map Prod.fst := by
  rcases hp : p.resp with _ | pe
  · simp only [applyChanges, hp] at h
    simp only [List.append_assoc, List.mem_append, List.mem_singleton] at h
    rcases h with h | h | h | h
    · exact Or.inl (startPhase_write_mem _ _ _ _ h)
    · exact absurd h (by simp)
    · simp only [reportPhase] at h
      rcases List.mem_map.mp h with ⟨d, _, hd⟩
      exact absurd hd (reportOp_ne_writeResult _ _ _ _)
    · exact absurd (mem_async_tail _ _ h) (by simp)
  · cases pe with
    | applyError m =>
      simp only [applyChanges, hp] at h
      simp only [List.append_assoc, List.mem_append, List.mem_singleton] at h
      rcases h with h | h | h | h | h
      · exact Or.inl (startPhase_write_mem _ _ _ _ h)
      · exact absurd h (by simp)
      · rcases failWrites_ops m _ _ h with ⟨j, c, hm, he⟩
        have hij : id = j := by
          injection he with h1 h2
        refine Or.inr ⟨m, rfl, ?_⟩
        rw [hij]
        exact List.mem_map.mpr ⟨(j, c), hm, rfl⟩
      · simp only [reportPhase] at h
        rcases List.mem_map.mp h with ⟨d, _, hd⟩
        exact absurd hd (reportOp_ne_writeResult _ _ _ _)
      · exact absurd (mem_async_tail _ _ h) (by simp)
    | coverall msg =>
      simp only [applyChanges, hp] at h
      simp only [List.append_assoc, List.mem_append, List.mem_singleton] at h
      rcases h with h | h | h
      · exact Or.inl (startPhase_write_mem _ _ _ _ h)
      · exact absurd h (by simp)
      · rcases unknownWrites_ops msg updates _ _ h with ⟨j, hm, he⟩
        have hij : id = j := by injection he with h1 h2
        exact Or.inl (hij ▸ hm)

/-- C6 amended, witness: in the counterexample run, the write to `sidGhost`
is accounted for by the per-service mapping that names it. -/
theorem ledger_writes_batch_or_named_witness :
    sidGhost ∈ [updWeb].map (fun u => u.serviceID)
    ∨ ∃ m, (Platform.mk (some (PlatformError.applyError [(sidGhost, "x")]))).resp
          = some (PlatformError.applyError m)
        ∧ sidGhost ∈ m.map Prod.fst := by
  exact ledger_writes_batch_or_named
    ⟨some (PlatformError.applyError [(sidGhost, "x")])⟩ [updWeb] emptyLedger
    sidGhost ⟨ReleaseStatus.failed, "x", []⟩ (by decide)

/-- C7: the self partition is submitted to the Platform iff it is
non-empty and no coverall error occurred; when submitted it is submitted
exactly once, as the very last action of the run — after all ordinary
reporting, with no ledger store after or by it (its return value is
discarded: no later action depends on it). -/
theorem self_apply_exactly_once_last (p : Platform)
    (updates : List ServiceUpdate) (res : Ledger) :
    ((∀ msg, p.resp ≠ some (PlatformError.coverall msg)) →
      ∃ pre, (applyChanges p updates res).trace
          = pre ++ (if (startPhase updates res).asyncDefs = [] then []
                    else [Op.platformApply (startPhase updates res).asyncDefs true])
        ∧ ∀ ds, Op.platformApply ds true ∉ pre)
    ∧ (∀ msg, p.resp = some (PlatformError.coverall msg) →
        ∀ ds, Op.platformApply ds true
            ∉ (applyChanges p updates res).trace) := by
  rcases hp : p.resp with _ | pe
  · constructor
    · intro _
      refine ⟨(startPhase updates res).ops
          ++ [Op.platformApply (startPhase updates res).defs false]
          ++ reportPhase (startPhase updates res).defs
              (startPhase updates res).ledger, ?_, ?_⟩
      · simp only [applyChanges, hp]
      · intro ds hds
        simp only [List.append_assoc, List.mem_append, List.mem_singleton] at hds
        rcases hds with hds | hds | hds
        · rcases startPhase_ops_shape updates res _ hds with ⟨_, _, _, hs⟩ | ⟨_, _, hw⟩
          · exact absurd hs (by simp)
          · exact absurd hw (by simp)
        · exact absurd hds (by simp)
        · simp only [reportPhase] at hds
          rcases List.mem_map.mp hds with ⟨d, _, hd⟩
          exact absurd hd (reportOp_ne_platformApply _ _ _ _)
    · intro msg hmsg
      exact Option.noConfusion hmsg
  · cases pe with
    | applyError m =>
      constructor
      · intro _
        refine ⟨(startPhase updates res).ops
            ++ [Op.platformApply (startPhase updates res).defs false]
            ++ (failWrites m (startPhase updates res).ledger).2
            ++ reportPhase (startPhase updates res).defs
                (failWrites m (startPhase updates res).ledger).1, ?_, ?_⟩
        · simp only [applyChanges, hp]
        · intro ds hds
          simp only [List.append_assoc, List.mem_append, List.mem_singleton] at hds
          rcases hds with hds | hds | hds | hds
          · rcases startPhase_ops_shape updates res _ hds with ⟨_, _, _, hs⟩ | ⟨_, _, hw⟩
            · exact absurd hs (by simp)
            · exact absurd hw (by simp)
          · exact absurd hds (by simp)
          · rcases failWrites_ops m _ _ hds with ⟨_, _, _, hw⟩
            exact absurd hw (by simp)
          · simp only [reportPhase] at hds
            rcases List.mem_map.mp hds with ⟨d, _, hd⟩
            exact absurd hd (reportOp_ne_platformApply _ _ _ _)
      · intro msg hmsg
        exact absurd (Option.some.inj hmsg) (by simp)
    | coverall msg =>
      constructor
      · intro hno
        exact absurd rfl (hno msg)
      · intro msg' _ ds hds
        simp only [applyChanges, hp] at hds
        simp only [List.append_assoc, List.mem_append, List.mem_singleton] at hds
        rcases hds with hds | hds | hds
        · rcases startPhase_ops_shape updates res _ hds with ⟨_, _, _, hs⟩ | ⟨_, _, hw⟩
          · exact absurd hs (by simp)
          · exact absurd hw (by simp)
        · exact absurd hds (by simp)
        · rcases unknownWrites_ops msg updates _ _ hds with ⟨_, _, hw⟩
          exact absurd hw (by simp)

/-- C7 witness at a concrete batch containing a self record and no
Platform error: the async submission is the single, final async apply of
the trace. -/
theorem self_apply_exactly_once_last_witness :
    ∃ pre, (applyChanges ⟨none⟩ [updWeb, updFluxSelf] emptyLedger).trace
        = pre ++ (if (startPhase [updWeb, updFluxSelf] emptyLedger).asyncDefs = []
                  then []
                  else [Op.platformApply
                    (startPhase [updWeb, updFluxSelf] emptyLedger).asyncDefs true])
      ∧ ∀ ds, Op.platformApply ds true ∉ pre := by
  exact (self_apply_exactly_once_last ⟨none⟩ [updWeb, updFluxSelf]
    emptyLedger).1 (fun msg hmsg => Option.noConfusion hmsg)

/-- In every run with no coverall error, the final ledger status of each
reported synchronous definition is `Success` or `Failed`. -/
lemma final_status_dichotomy (p : Platform) (updates : List ServiceUpdate)
    (res : Ledger) (hnc : ∀ msg, p.resp ≠ some (PlatformError.coverall msg)) :
    ∀ d ∈ (startPhase updates res).defs,
      ((applyChanges p updates res).ledger d.serviceID).status
          = ReleaseStatus.success
      ∨ ((applyChanges p updates res).ledger d.serviceID).status
          = ReleaseStatus.failed := by
  intro d hd
  have hmem := startPhase_defs_mem updates res d hd
  have hsucc : ((startPhase updates res).ledger d.serviceID).status
      = ReleaseStatus.success := by
    rw [startPhase_ledger, if_pos hmem]
  rcases hp : p.resp with _ | pe
  · simp only [applyChanges, hp]
    exact Or.inl hsucc
  · cases pe with
    | applyError m =>
      simp only [applyChanges, hp]
      rcases failWrites_ledger_shape m (startPhase updates res).ledger d.serviceID
        with h | ⟨c, _, h⟩
      · rw [h]; exact Or.inl hsucc
      · rw [h]; exact Or.inr rfl
    | coverall msg => exact absurd hp (hnc msg)

/-- C8 counterexample: at a run with no Platform error and an empty
pre-existing ledger, the record `updWeb` — whose Update Record carries the
container change `c1 (img:v1 -> v2)` — is reported with the summary
"(no image changes)": the result event's summary is not computed from the
containerChanges carried in that record's Update Record. -/
theorem report_summary_not_from_record_cex :
    Op.logEvent "ns" "web" "Release (no image changes) succeeded"
        ∈ (applyChanges ⟨none⟩ [updWeb] emptyLedger).trace
    ∧ Op.logEvent "ns" "web"
          ("Release " ++ summariseUpdate updWeb.updates ++ " succeeded")
        ∉ (applyChanges ⟨none⟩ [updWeb] emptyLedger).trace := by
  decide

/-- Trace decomposition of a run with no coverall error: starting events
and priming stores, the ordinary apply, the error-handling stores, the
result events (one per synchronous definition, in order, determined by the
final ledger entry), and the conditional self apply. -/
lemma trace_shape_no_coverall (p : Platform) (updates : List ServiceUpdate)
    (res : Ledger) (h : ∀ msg, p.resp ≠ some (PlatformError.coverall msg)) :
    ∃ wops, (∀ op ∈ wops, ∃ id r, op = Op.writeResult id r)
      ∧ (applyChanges p updates res).trace
          = (startPhase updates res).ops
            ++ [Op.platformApply (startPhase updates res).defs false]
            ++ wops
            ++ ((startPhase updates res).defs.map fun d =>
                if ((applyChanges p updates res).ledger d.serviceID).status
                    = ReleaseStatus.success then
                  Op.logEvent d.serviceID.ns d.serviceID.name
                    ("Release "
                      ++ summariseUpdate
                          ((applyChanges p updates res).ledger d.serviceID).perContainer
                      ++ " succeeded")
                else
                  Op.logEvent d.serviceID.ns d.serviceID.name
                    ("Release "
                      ++ summariseUpdate
                          ((applyChanges p updates res).ledger d.serviceID).perContainer
                      ++ " failed: "
                      ++ ((applyChanges p updates res).ledger d.serviceID).error))
            ++ (if (startPhase updates res).asyncDefs = [] then []
                else [Op.platformApply (startPhase updates res).asyncDefs true]) := by
  have hdich := final_status_dichotomy p updates res h
  rcases hp : p.resp with _ | pe
  · refine ⟨[], by simp, ?_⟩
    simp only [applyChanges, hp] at hdich ⊢
    rw [reportPhase_eq_map _ _ hdich]
    simp
  · cases pe with
    | applyError m =>
      refine ⟨(failWrites m (startPhase updates res).ledger).2, ?_, ?_⟩
      · intro op hop
        rcases failWrites_ops m _ op hop with ⟨j, c, _, he⟩
        exact ⟨j, ⟨ReleaseStatus.failed, c, []⟩, he⟩
      · simp only [applyChanges, hp] at hdich ⊢
        rw [reportPhase_eq_map _ _ hdich]
    | coverall msg => exact absurd hp (h msg)

/-- C8 amended: when no coverall error occurred, for each ordinary record,
in original input order, exactly one result event is emitted, whose message
is determined by the record's final ledger entry (`Success` → "Release
<summary> succeeded", `Failed` → "Release <summary> failed:
<errorMessage>"), where the summary is computed from the ledger entry's
`perContainer` field (the pre-existing ledger content preserved by priming,
or dropped by a per-service failure write), not from the Update Record's
container changes; the result events are preceded only by starting events,
the apply submission and ledger stores, and followed only by the
conditional self apply. -/
theorem result_events_from_ledger (p : Platform) (updates : List ServiceUpdate)
    (res : Ledger) (h : ∀ msg, p.resp ≠ some (PlatformError.coverall msg)) :
    ∃ wops, (∀ op ∈ wops, ∃ id r, op = Op.writeResult id r)
      ∧ (applyChanges p updates res).trace
          = (startPhase updates res).ops
            ++ [Op.platformApply (startPhase updates res).defs false]
            ++ wops
            ++ ((startPhase updates res).defs.map fun d =>
                if ((applyChanges p updates res).ledger d.serviceID).status
                    = ReleaseStatus.success then
                  Op.logEvent d.serviceID.ns d.serviceID.name
                    ("Release "
                      ++ summariseUpdate
                          ((applyChanges p updates res).ledger d.serviceID).perContainer
                      ++ " succeeded")
                else
                  Op.logEvent d.serviceID.ns d.serviceID.name
                    ("Release "
                      ++ summariseUpdate
                          ((applyChanges p updates res).ledger d.serviceID).perContainer
                      ++ " failed: "
                      ++ ((applyChanges p updates res).ledger d.serviceID).error))
            ++ (if (startPhase updates res).asyncDefs = [] then []
                else [Op.platformApply (startPhase updates res).asyncDefs true]) := by
  exact trace_shape_no_coverall p updates res h

/-- C8 amended, witness: at the counterexample's input the trace is as
characterized, with no error-handling stores. -/
theorem result_events_from_ledger_witness :
    ∃ wops, (∀ op ∈ wops, ∃ id r, op = Op.writeResult id r)
      ∧ (applyChanges ⟨none⟩ [updWeb] emptyLedger).trace
          = (startPhase [updWeb] emptyLedger).ops
            ++ [Op.platformApply (startPhase [updWeb] emptyLedger).defs false]
            ++ wops
            ++ ((startPhase [updWeb] emptyLedger).defs.map fun d =>
                if ((applyChanges ⟨none⟩ [updWeb] emptyLedger).ledger d.serviceID).status
                    = ReleaseStatus.success then
                  Op.logEvent d.serviceID.ns d.serviceID.name
                    ("Release "
                      ++ summariseUpdate
                          ((applyChanges ⟨none⟩ [updWeb] emptyLedger).ledger
                            d.serviceID).perContainer
                      ++ " succeeded")
                else
                  Op.logEvent d.serviceID.ns d.serviceID.name
                    ("Release "
                      ++ summariseUpdate
                          ((applyChanges ⟨none⟩ [updWeb] emptyLedger).ledger
                            d.serviceID).perContainer
                      ++ " failed: "
                      ++ ((applyChanges ⟨none⟩ [updWeb] emptyLedger).ledger
                            d.serviceID).error))
            ++ (if (startPhase [updWeb] emptyLedger).asyncDefs = [] then []
                else [Op.platformApply (startPhase [updWeb] emptyLedger).asyncDefs
                        true]) := by
  exact result_events_from_ledger ⟨none⟩ [updWeb] emptyLedger
    (fun msg hmsg => Option.noConfusion hmsg)

/-- C9 counterexample: a change whose target reference is `img:v2` (tag
`v2`) renders as "c1 (img:v1 -> v2)": the target contributes only its tag,
not the full target image reference "img:v2". -/
theorem summarise_target_tag_cex :
    summariseUpdate [cu1] = "c1 (img:v1 -> v2)"
    ∧ summariseUpdate [cu1]
        ≠ "c1 (" ++ cu1.current.render ++ " -> " ++ cu1.target.render ++ ")" := by
  decide

/-- C9 amended: a record with zero container changes summarizes exactly as
"(no image changes)"; a record with the single change `(c1, a, b)`
summarizes exactly as `"c1 (<full current a> -> <tag of b>)"` — the target
rendered by its tag only — and multiple changes are joined with ", ". -/
theorem summarise_format (c : String) (a b : ImageID) (x y : ContainerUpdate) :
    summariseUpdate [] = "(no image changes)"
    ∧ summariseUpdate [⟨c, a, b⟩]
        = c ++ " (" ++ a.render ++ " -> " ++ b.tag ++ ")"
    ∧ summariseUpdate [x, y]
        = summariseUpdate [x] ++ ", " ++ summariseUpdate [y] := by
  refine ⟨rfl, rfl, rfl⟩

/-- C10: in every run that reaches the reporting loop (no coverall error),
each reported ordinary record's final ledger status is `Success` or
`Failed` — the `Unknown` branch cannot be taken since the only `Unknown`
writes return before reporting — and the defensive unexpected-status
diagnostic is never emitted. -/
theorem reporting_never_unknown_or_diag (p : Platform)
    (updates : List ServiceUpdate) (res : Ledger)
    (h : ∀ msg, p.resp ≠ some (PlatformError.coverall msg)) :
    (∀ d ∈ (startPhase updates res).defs,
        ((applyChanges p updates res).ledger d.serviceID).status
            = ReleaseStatus.success
        ∨ ((applyChanges p updates res).ledger d.serviceID).status
            = ReleaseStatus.failed)
    ∧ (∀ a b c, Op.logDiag a b c ∉ (applyChanges p updates res).trace) := by
  refine ⟨final_status_dichotomy p updates res h, ?_⟩
  intro a b c hmem
  rcases trace_shape_no_coverall p updates res h with ⟨wops, hw, htr⟩
  rw [htr] at hmem
  simp only [List.append_assoc, List.mem_append, List.mem_singleton] at hmem
  rcases hmem with hm | hm | hm | hm | hm
  · rcases startPhase_ops_shape updates res _ hm with ⟨_, _, _, hs⟩ | ⟨_, _, hws⟩
    · exact absurd hs (by simp)
    · exact absurd hws (by simp)
  · exact absurd hm (by simp)
  · rcases hw _ hm with ⟨_, _, hws⟩
    exact absurd hws (by simp)
  · rcases List.mem_map.mp hm with ⟨d, _, hd⟩
    revert hd
    split <;> simp
  · exact absurd (mem_async_tail _ _ hm) (by simp)

/-- C10 witness at a concrete run that reaches the reporting loop: the
reported record's status is `Success` or `Failed`, and no diagnostic event
is in the trace. -/
theorem reporting_never_unknown_or_diag_witness :
    (((applyChanges ⟨none⟩ [updWeb] emptyLedger).ledger
          (ServiceDefinition.mk sidWeb "m1" false).serviceID).status
        = ReleaseStatus.success
      ∨ ((applyChanges ⟨none⟩ [updWeb] emptyLedger).ledger
          (ServiceDefinition.mk sidWeb "m1" false).serviceID).status
        = ReleaseStatus.failed)
    ∧ Op.logDiag "unexpected release status" sidWeb.render ""
        ∉ (applyChanges ⟨none⟩ [updWeb] emptyLedger).trace := by
  have h := reporting_never_unknown_or_diag ⟨none⟩ [updWeb] emptyLedger
    (fun msg hmsg => Option.noConfusion hmsg)
  exact ⟨h.1 ⟨sidWeb, "m1", false⟩ (by decide), h.2 _ _ _⟩

end Flux
